import Mathlib

set_option maxHeartbeats 1000000

/-!
Shallow embedding of src/types/wallet.go (amp-matching-engine).

Bytes are Nat values below 256, byte sequences are List Nat, Go strings are
List Char. External collaborators (go-ethereum crypto primitives, encoding/hex,
the bson unmarshaller) live outside src/ and are modelled from the spec at
their interface boundary: keccak-256, ECDSA sign and public-address derivation
are passed as function parameters, bson unmarshalling as an Except input.
Go nil-pointer panics are modelled as a none result.
-/

/-- Errors surfaced by wallet operations and their external collaborators.
invalidKeyFormat covers a malformed or out-of-range hex scalar; external
covers arbitrary collaborator failures (random source, sign primitive,
structural unmarshal). -/
inductive GoError where
  | invalidKeyFormat : GoError
  | external : Nat → GoError
deriving DecidableEq

/-- Value of one hexadecimal digit character, case-insensitive
(encoding/hex digit semantics). -/
def hexDigitVal (c : Char) : Option Nat :=
  if 48 ≤ c.toNat ∧ c.toNat ≤ 57 then some (c.toNat - 48)
  else if 97 ≤ c.toNat ∧ c.toNat ≤ 102 then some (c.toNat - 87)
  else if 65 ≤ c.toNat ∧ c.toNat ≤ 70 then some (c.toNat - 55)
  else none

/-- Lowercase hexadecimal digit character for a value below 16. -/
def hexDigitChar (n : Nat) : Char :=
  if n < 10 then Char.ofNat (48 + n) else Char.ofNat (87 + n)

/-- hex.EncodeToString: lowercase hex, two characters per byte, big-endian
within the byte. -/
def hexEncode : List Nat → List Char
  | [] => []
  | b :: bs => hexDigitChar (b / 16) :: hexDigitChar (b % 16) :: hexEncode bs

/-- Strict hex decoding (hex.DecodeString used on the private-key path):
fails on any invalid character or on odd length. -/
def hexDecodeList : List Char → Option (List Nat)
  | [] => some []
  | [_] => none
  | c1 :: c2 :: rest =>
    match hexDigitVal c1, hexDigitVal c2, hexDecodeList rest with
    | some hi, some lo, some bs => some ((16 * hi + lo) :: bs)
    | _, _, _ => none

/-- Lenient hex decoding (common.Hex2Bytes semantics on the address path):
decodes byte pairs up to the first invalid character or odd tail and discards
the error. -/
def hexDecodeLoose : List Char → List Nat
  | c1 :: c2 :: rest =>
    match hexDigitVal c1, hexDigitVal c2 with
    | some hi, some lo => (16 * hi + lo) :: hexDecodeLoose rest
    | _, _ => []
  | _ => []

/-- Minimal big-endian byte encoding of a natural number, with explicit fuel
so that the definition is structurally recursive (big.Int Bytes semantics:
the empty list for zero, no leading zero byte otherwise). -/
def minBytesAux : Nat → Nat → List Nat
  | _, 0 => []
  | 0, _ + 1 => []
  | fuel + 1, n + 1 => minBytesAux fuel ((n + 1) / 256) ++ [(n + 1) % 256]

/-- Minimal big-endian byte encoding of a natural number (big.Int Bytes). -/
def minBytes (n : Nat) : List Nat := minBytesAux n n

/-- Big-endian interpretation of a byte sequence as a natural number
(big.Int SetBytes). -/
def natFromBytes (bs : List Nat) : Nat :=
  bs.foldl (fun a b => a * 256 + b) 0

/-- Fixed-width coercion of a byte sequence (common.Address SetBytes and
common.Hash SetBytes semantics): keep the last w bytes when longer, left-pad
with zero bytes when shorter. -/
def bytesToFixed (w : Nat) (b : List Nat) : List Nat :=
  List.replicate (w - (if b.length > w then b.drop (b.length - w) else b).length) 0
    ++ (if b.length > w then b.drop (b.length - w) else b)

/-- Strip a leading 0x or 0X marker when present (common.FromHex step one). -/
def strip0x (s : List Char) : List Char :=
  match s with
  | c1 :: c2 :: rest => if c1 = '0' ∧ (c2 = 'x' ∨ c2 = 'X') then rest else s
  | _ => s

/-- Left-pad an odd-length hex string with one zero digit
(common.FromHex step two). -/
def padEven (s : List Char) : List Char :=
  if s.length % 2 = 1 then '0' :: s else s

/-- common.FromHex: strip the 0x marker, pad to even length, decode leniently. -/
def fromHex (s : List Char) : List Nat :=
  hexDecodeLoose (padEven (strip0x s))

/-- Modelled from the spec: common.HexToAddress, an external collaborator.
Any string is silently coerced to a 20-byte address with no checksum
validation (spec section 4.4: any syntactically hex-like string is accepted). -/
def hexToAddress (s : List Char) : List Nat :=
  bytesToFixed 20 (fromHex s)

/-- Modelled from the spec: Address Hex, an external collaborator. The hex
representation of the 20 address bytes with a 0x marker; the EIP-55 checksum
casing of the reference library is not modelled, since decoding is
case-insensitive and no claim depends on letter case. -/
def addressHex (a : List Nat) : List Char :=
  '0' :: 'x' :: hexEncode a

/-- Order of the secp256k1 curve. -/
def secpN : Nat :=
  115792089237316195423570985008687907852837564279074904382605163141518161494337

/-- Modelled from the spec: crypto.HexToECDSA (hexToScalar in spec section 6),
an external collaborator. Parses a hex-encoded scalar and validates that it
lies in the valid curve-order range; fails with invalidKeyFormat when the hex
string is malformed or out of range (spec section 4.1). -/
def hexToScalar (s : List Char) : Except GoError Nat :=
  match hexDecodeList s with
  | none => Except.error GoError.invalidKeyFormat
  | some bs =>
    if natFromBytes bs = 0 then Except.error GoError.invalidKeyFormat
    else if secpN ≤ natFromBytes bs then Except.error GoError.invalidKeyFormat
    else Except.ok (natFromBytes bs)

/-- Wallet: the id (an opaque storage identifier, modelled as a Nat), the
20-byte address, the private scalar (an Option, none modelling a Go nil
pointer), and the admin and operator flags. -/
structure Wallet where
  ID : Nat
  Address : List Nat
  PrivateKey : Option Nat
  Admin : Bool
  Operator : Bool
deriving DecidableEq

/-- WalletRecord: the flat storage-facing projection with hex-string address
and private key. -/
structure WalletRecord where
  ID : Nat
  Address : List Char
  PrivateKey : List Char
  Admin : Bool
  Operator : Bool
deriving DecidableEq

/-- Modelled from the spec: the Signature type (repo code outside src/).
r and s are 32-byte values, v a single byte equal to recovery id plus 27
(spec section 3). -/
structure Signature where
  R : List Nat
  S : List Nat
  V : Nat
deriving DecidableEq

/-- The zero value of the Signature type (Go Signature zero struct). -/
def emptySignature : Signature :=
  { R := List.replicate 32 0, S := List.replicate 32 0, V := 0 }

/-- Modelled from the spec: Order, a Signable (repo code outside src/).
computeHash is a pure function of order content producing a 32-byte digest
(spec section 3), modelled as the stored canonical digest ContentHash;
Hash and Signature are the mutable fields the wallet sets when signing. -/
structure Order where
  ContentHash : List Nat
  Hash : List Nat
  Signature : Option Signature
deriving DecidableEq

/-- Modelled from the spec: Order ComputeHash returns the canonical content
digest. -/
def Order.ComputeHash (o : Order) : List Nat := o.ContentHash

/-- Modelled from the spec: Trade, a Signable (repo code outside src/),
identical in shape to Order for signing purposes. -/
structure Trade where
  ContentHash : List Nat
  Hash : List Nat
  Signature : Option Signature
deriving DecidableEq

/-- Modelled from the spec: Trade ComputeHash returns the canonical content
digest. -/
def Trade.ComputeHash (t : Trade) : List Nat := t.ContentHash

/-- NewWallet (wallet.go lines 25 to 33). The outcome of the external random
key generation primitive is passed in as genKey and the address-derivation
primitive as pubAddr. The code discards the error from key generation with a
blank identifier and then dereferences the key; when generation failed the key
is nil and the dereference panics, modelled as none. The Go signature returns
only a Wallet pointer, so no error can be propagated. -/
def NewWallet (pubAddr : Nat → List Nat) (genKey : Except GoError Nat) :
    Option Wallet :=
  match genKey with
  | Except.error _ => none
  | Except.ok d =>
    some { ID := 0,
           Address := pubAddr d,
           PrivateKey := some d,
           Admin := false,
           Operator := false }

/-- NewWalletFromPrivateKey (wallet.go lines 37 to 47). On a hex parse error
the code only logs and then derives an address from the nil key, a nil-pointer
dereference panic, modelled as none. The Go signature returns only a Wallet
pointer, so no error can be propagated. -/
def NewWalletFromPrivateKey (pubAddr : Nat → List Nat) (key : List Char) :
    Option Wallet :=
  match hexToScalar key with
  | Except.error _ => none
  | Except.ok d =>
    some { ID := 0,
           Address := pubAddr d,
           PrivateKey := some d,
           Admin := false,
           Operator := false }

/-- GetBSON (wallet.go lines 71 to 78): project the wallet to a WalletRecord
with hex-encoded address and private scalar; the Operator field of the record
is never assigned and stays at its zero value. Dereferencing an absent private
key panics, modelled as none; otherwise the pair is the record together with
the returned error, which is syntactically nil. -/
def GetBSON (w : Wallet) : Option (WalletRecord × Option GoError) :=
  match w.PrivateKey with
  | none => none
  | some d =>
    some ({ ID := w.ID,
            Address := addressHex w.Address,
            PrivateKey := hexEncode (minBytes d),
            Admin := w.Admin,
            Operator := false }, none)

/-- SetBSON (wallet.go lines 80 to 99). The structural bson unmarshal is an
external collaborator, modelled as the Except input raw. On unmarshal failure
the error is returned with the wallet untouched. Otherwise ID and Address are
assigned first; then the multiple assignment of the private-key parse writes
the parsed key and the error together, so on a parse failure the private key
has been overwritten with nil and the error is returned before Admin and
Operator are touched. -/
def SetBSON (w : Wallet) (raw : Except GoError WalletRecord) :
    Option GoError × Wallet :=
  match raw with
  | Except.error e => (some e, w)
  | Except.ok r =>
    match hexToScalar r.PrivateKey with
    | Except.error e =>
      (some e,
       { w with
         ID := r.ID,
         Address := hexToAddress r.Address,
         PrivateKey := none })
    | Except.ok d =>
      (none,
       { ID := r.ID,
         Address := hexToAddress r.Address,
         PrivateKey := some d,
         Admin := r.Admin,
         Operator := r.Operator })

/-- The exact preamble bytes of the string with a 0x19 byte, then the ASCII
text Ethereum Signed Message:, then a newline byte, then the ASCII text 32
(wallet.go line 105). -/
def ethPreamble : List Nat :=
  [25, 69, 116, 104, 101, 114, 101, 117, 109, 32,
   83, 105, 103, 110, 101, 100, 32, 77, 101, 115, 115, 97, 103, 101, 58,
   10, 51, 50]

/-- SignHash (wallet.go lines 103 to 121). The external keccak-256 and ECDSA
sign primitives are parameters (spec section 6). The preamble and the digest
bytes are hashed, the result is signed; on a sign error the pair of the zero
Signature and the error is returned. On success the 65-byte output is sliced:
R from bytes 0 to 31, S from bytes 32 to 63, V the byte at index 64 plus 27
in byte arithmetic. Slicing a shorter output or dereferencing an absent
private key panics, modelled as none. -/
def SignHash (keccak : List Nat → List Nat)
    (sign : List Nat → Nat → Except GoError (List Nat))
    (w : Wallet) (h : List Nat) : Option (Signature × Option GoError) :=
  match w.PrivateKey with
  | none => none
  | some d =>
    match sign (keccak (ethPreamble ++ h)) d with
    | Except.error e => some (emptySignature, some e)
    | Except.ok sb =>
      if sb.length < 65 then none
      else
        some ({ R := bytesToFixed 32 (sb.take 32),
                S := bytesToFixed 32 ((sb.drop 32).take 32),
                V := (sb.getD 64 0 + 27) % 256 : Signature }, none)

/-- SignTrade (wallet.go lines 124 to 135): compute the trade hash, sign it;
on failure return the error with the trade unmodified, on success set both
the Hash and the Signature fields. The result pairs the returned error with
the trade state after the call. -/
def SignTrade (keccak : List Nat → List Nat)
    (sign : List Nat → Nat → Except GoError (List Nat))
    (w : Wallet) (t : Trade) : Option (Option GoError × Trade) :=
  match SignHash keccak sign w t.ComputeHash with
  | none => none
  | some (_, some e) => some (some e, t)
  | some (sig, none) =>
    some (none,
          { t with
            Hash := t.ComputeHash,
            Signature := some sig })

/-- SignOrder (wallet.go lines 137 to 147): identical contract for an Order. -/
def SignOrder (keccak : List Nat → List Nat)
    (sign : List Nat → Nat → Except GoError (List Nat))
    (w : Wallet) (o : Order) : Option (Option GoError × Order) :=
  match SignHash keccak sign w o.ComputeHash with
  | none => none
  | some (_, some e) => some (some e, o)
  | some (sig, none) =>
    some (none,
          { o with
            Hash := o.ComputeHash,
            Signature := some sig })

/-! Helper lemmas about the byte and hex codecs. -/

theorem hexDigit_round : ∀ n, n < 16 → hexDigitVal (hexDigitChar n) = some n := by
  decide

theorem hexDecodeList_hexEncode :
    ∀ bs : List Nat, (∀ b ∈ bs, b < 256) → hexDecodeList (hexEncode bs) = some bs := by
  intro bs
  induction bs with
  | nil => intro _; rfl
  | cons b bs ih =>
    intro hmem
    have hb : b < 256 := hmem b (List.mem_cons_self b bs)
    have h1 : b / 16 < 16 := Nat.div_lt_of_lt_mul (by omega)
    have h2 : b % 16 < 16 := Nat.mod_lt _ (by norm_num)
    have htl := ih (fun x hx => hmem x (List.mem_cons_of_mem b hx))
    have hba : 16 * (b / 16) + b % 16 = b := by omega
    simp [hexEncode, hexDecodeList, hexDigit_round _ h1, hexDigit_round _ h2, htl, hba]

theorem hexDecodeLoose_hexEncode :
    ∀ bs : List Nat, (∀ b ∈ bs, b < 256) → hexDecodeLoose (hexEncode bs) = bs := by
  intro bs
  induction bs with
  | nil => intro _; rfl
  | cons b bs ih =>
    intro hmem
    have hb : b < 256 := hmem b (List.mem_cons_self b bs)
    have h1 : b / 16 < 16 := Nat.div_lt_of_lt_mul (by omega)
    have h2 : b % 16 < 16 := Nat.mod_lt _ (by norm_num)
    have htl := ih (fun x hx => hmem x (List.mem_cons_of_mem b hx))
    have hba : 16 * (b / 16) + b % 16 = b := by omega
    simp [hexEncode, hexDecodeLoose, hexDigit_round _ h1, hexDigit_round _ h2, htl, hba]

theorem hexEncode_length (bs : List Nat) : (hexEncode bs).length = 2 * bs.length := by
  induction bs with
  | nil => rfl
  | cons b bs ih => simp [hexEncode, ih]; omega

theorem natFromBytes_append (xs : List Nat) (b : Nat) :
    natFromBytes (xs ++ [b]) = natFromBytes xs * 256 + b := by
  simp [natFromBytes, List.foldl_append]

theorem natFromBytes_minBytesAux :
    ∀ fuel n, n ≤ fuel → natFromBytes (minBytesAux fuel n) = n := by
  intro fuel
  induction fuel with
  | zero =>
    intro n hn
    interval_cases n
    rfl
  | succ f ih =>
    intro n hn
    match n with
    | 0 => rfl
    | m + 1 =>
      have hdiv : (m + 1) / 256 < m + 1 :=
        Nat.div_lt_self (Nat.succ_pos m) (by norm_num)
      have h1 : (m + 1) / 256 ≤ f := by omega
      rw [minBytesAux, natFromBytes_append, ih _ h1]
      omega

theorem minBytesAux_lt :
    ∀ fuel n b, b ∈ minBytesAux fuel n → b < 256 := by
  intro fuel
  induction fuel with
  | zero =>
    intro n b hb
    match n with
    | 0 => simp [minBytesAux] at hb
    | m + 1 => simp [minBytesAux] at hb
  | succ f ih =>
    intro n b hb
    match n with
    | 0 => simp [minBytesAux] at hb
    | m + 1 =>
      rw [minBytesAux] at hb
      rcases List.mem_append.mp hb with hb | hb
      · exact ih _ _ hb
      · rw [List.mem_singleton] at hb
        subst hb
        exact Nat.mod_lt _ (by norm_num)

theorem natFromBytes_minBytes (d : Nat) : natFromBytes (minBytes d) = d :=
  natFromBytes_minBytesAux d d (Nat.le_refl d)

theorem minBytes_lt (d b : Nat) (hb : b ∈ minBytes d) : b < 256 :=
  minBytesAux_lt d d b hb

theorem hexToScalar_hexEncode_minBytes (d : Nat) (h0 : 0 < d) (hN : d < secpN) :
    hexToScalar (hexEncode (minBytes d)) = Except.ok d := by
  have hdec := hexDecodeList_hexEncode (minBytes d) (fun b hb => minBytes_lt d b hb)
  rw [hexToScalar, hdec]
  simp only [natFromBytes_minBytes]
  rw [if_neg (by omega), if_neg (by omega)]

theorem bytesToFixed_self (w : Nat) (b : List Nat) (h : b.length = w) :
    bytesToFixed w b = b := by
  simp [bytesToFixed, h]

theorem bytesToFixed_length (w : Nat) (b : List Nat) :
    (bytesToFixed w b).length = w := by
  by_cases hc : b.length > w
  · simp [bytesToFixed, hc]
    omega
  · simp [bytesToFixed, hc]
    omega

theorem hexToAddress_addressHex (a : List Nat) (ha : a.length = 20)
    (hb : ∀ b ∈ a, b < 256) : hexToAddress (addressHex a) = a := by
  have h1 : strip0x (addressHex a) = hexEncode a := by
    simp [strip0x, addressHex]
  have h2 : padEven (hexEncode a) = hexEncode a := by
    simp [padEven, hexEncode_length]
  have h3 : hexDecodeLoose (hexEncode a) = a := hexDecodeLoose_hexEncode a hb
  rw [hexToAddress, fromHex, h1, h2, h3]
  exact bytesToFixed_self 20 a ha

/-! Concrete instances used by the witness theorems. -/

/-- A concrete wallet with a present private scalar and both flags set. -/
def wEx : Wallet :=
  { ID := 7, Address := List.replicate 20 0, PrivateKey := some 1,
    Admin := true, Operator := true }

/-- A concrete target wallet for decoding. -/
def vEx : Wallet :=
  { ID := 0, Address := [], PrivateKey := none, Admin := false,
    Operator := false }

/-- The record GetBSON produces for wEx. -/
def rEx : WalletRecord :=
  { ID := 7, Address := addressHex (List.replicate 20 0),
    PrivateKey := hexEncode (minBytes 1), Admin := true, Operator := false }

/-- A record whose private key is not hex. -/
def rBad : WalletRecord :=
  { ID := 9, Address := ['0', 'x', 'a', 'b'], PrivateKey := ['z', 'z'],
    Admin := false, Operator := false }

/-- A concrete stand-in for the keccak-256 collaborator. -/
def keccakZero : List Nat → List Nat := fun _ => List.replicate 32 0

/-- A concrete sign collaborator that succeeds with a 65-byte output. -/
def signOk : List Nat → Nat → Except GoError (List Nat) :=
  fun _ _ => Except.ok (List.replicate 65 0)

/-- A concrete sign collaborator that fails. -/
def signBad : List Nat → Nat → Except GoError (List Nat) :=
  fun _ _ => Except.error (GoError.external 7)

/-- The signature signOk induces. -/
def sigZero27 : Signature :=
  { R := List.replicate 32 0, S := List.replicate 32 0, V := 27 }

/-- A concrete order. -/
def oEx : Order := { ContentHash := List.replicate 32 3, Hash := [], Signature := none }

/-- A concrete trade. -/
def tEx : Trade := { ContentHash := List.replicate 32 4, Hash := [], Signature := none }

/-! The claims. -/

/-- C1: for every 32-byte digest and every wallet with a valid private scalar,
SignHash hashes exactly the preamble bytes followed by the digest with
keccak-256, signs that with the wallet's scalar, and when the sign primitive
returns a 65-byte output splits it into R = bytes 0..31, S = bytes 32..63 and
V = the recovery-id byte at index 64 plus 27. -/
theorem C1_signHash_splits_signature
    (keccak : List Nat → List Nat)
    (sign : List Nat → Nat → Except GoError (List Nat))
    (w : Wallet) (d : Nat) (h : List Nat) (sb : List Nat)
    (hkey : w.PrivateKey = some d) (hd0 : 0 < d) (hdN : d < secpN)
    (hlen : h.length = 32)
    (hsign : sign (keccak (ethPreamble ++ h)) d = Except.ok sb)
    (hsb : sb.length = 65) (hrec : sb.getD 64 0 ≤ 1) :
    SignHash keccak sign w h =
      some ({ R := sb.take 32,
              S := (sb.drop 32).take 32,
              V := sb.getD 64 0 + 27 }, none) := by
  have h1 : (sb.take 32).length = 32 := by
    simp [List.length_take, hsb]
  have h2 : ((sb.drop 32).take 32).length = 32 := by
    simp [List.length_take, List.length_drop, hsb]
  have hv : (sb.getD 64 0 + 27) % 256 = sb.getD 64 0 + 27 :=
    Nat.mod_eq_of_lt (by omega)
  rw [SignHash, hkey]
  simp only [hsign]
  rw [if_neg (by omega)]
  rw [bytesToFixed_self 32 _ h1, bytesToFixed_self 32 _ h2, hv]

/-- Witness for C1 at a concrete wallet, digest and sign primitive. -/
theorem C1_witness :
    SignHash keccakZero signOk wEx (List.replicate 32 2) =
      some ({ R := (List.replicate 65 0).take 32,
              S := ((List.replicate 65 0).drop 32).take 32,
              V := (List.replicate 65 0).getD 64 0 + 27 }, none) :=
  C1_signHash_splits_signature keccakZero signOk wEx 1 (List.replicate 32 2)
    (List.replicate 65 0) rfl (by decide) (by decide) (by simp) rfl (by simp)
    (by decide)

/-- C2: decoding the record produced by encoding a wallet with a valid private
scalar succeeds and reproduces the wallet's id, address, private key and admin
flag exactly, for any target wallet the record is decoded into. -/
theorem C2_record_roundtrip (w v : Wallet) (d : Nat) (r : WalletRecord)
    (hkey : w.PrivateKey = some d) (hd0 : 0 < d) (hdN : d < secpN)
    (hlen : w.Address.length = 20) (hbytes : ∀ b ∈ w.Address, b < 256)
    (hrec : GetBSON w = some (r, none)) :
    (SetBSON v (Except.ok r)).1 = none ∧
    (SetBSON v (Except.ok r)).2.ID = w.ID ∧
    (SetBSON v (Except.ok r)).2.Address = w.Address ∧
    (SetBSON v (Except.ok r)).2.PrivateKey = w.PrivateKey ∧
    (SetBSON v (Except.ok r)).2.Admin = w.Admin := by
  rw [GetBSON, hkey] at hrec
  have hr : r = { ID := w.ID, Address := addressHex w.Address,
                  PrivateKey := hexEncode (minBytes d), Admin := w.Admin,
                  Operator := false } := by
    have := Option.some.inj hrec
    exact (congrArg Prod.fst this).symm
  subst hr
  rw [SetBSON]
  simp [hexToScalar_hexEncode_minBytes d hd0 hdN,
        hexToAddress_addressHex w.Address hlen hbytes, hkey]

/-- Witness for C2 at a concrete wallet. -/
theorem C2_witness :
    (SetBSON vEx (Except.ok rEx)).1 = none ∧
    (SetBSON vEx (Except.ok rEx)).2.ID = wEx.ID ∧
    (SetBSON vEx (Except.ok rEx)).2.Address = wEx.Address ∧
    (SetBSON vEx (Except.ok rEx)).2.PrivateKey = wEx.PrivateKey ∧
    (SetBSON vEx (Except.ok rEx)).2.Admin = wEx.Admin :=
  C2_record_roundtrip wEx vEx 1 rEx rfl (by decide) (by decide) (by decide)
    (by decide) rfl

/-- C3: the code at the failing input: for a malformed key the constructor
does not return an InvalidKeyFormat error (its Go result type has no error
component at all); it logs the parse error and then dereferences the nil key,
a panic modelled as none, for every address-derivation primitive. -/
theorem C3_newWalletFromPrivateKey_malformed (pubAddr : Nat → List Nat) :
    NewWalletFromPrivateKey pubAddr ['n', 'o', 't', '-', 'h', 'e', 'x'] = none :=
  rfl

/-- C4: the code at the failing input: when the random key generation
primitive fails, NewWallet discards the error (its Go result type has no
error component) and dereferences the nil key, a panic modelled as none.
No KeyGenerationFailed error reaches the caller. -/
theorem C4_newWallet_discards_generation_error (pubAddr : Nat → List Nat)
    (e : GoError) : NewWallet pubAddr (Except.error e) = none :=
  rfl

/-- C5: SignOrder and SignTrade are all-or-nothing: when the inner SignHash
succeeds both the hash field (set to the computeHash result) and the signature
field (set to the produced signature) are updated; when SignHash fails the
error is returned and the order or trade is unmodified. -/
theorem C5_sign_wrappers_all_or_nothing
    (keccak : List Nat → List Nat)
    (sign : List Nat → Nat → Except GoError (List Nat))
    (w : Wallet) (o : Order) (t : Trade) :
    (∀ sig : Signature,
       SignHash keccak sign w o.ComputeHash = some (sig, none) →
       SignOrder keccak sign w o =
         some (none, { o with Hash := o.ComputeHash, Signature := some sig })) ∧
    (∀ (sig : Signature) (e : GoError),
       SignHash keccak sign w o.ComputeHash = some (sig, some e) →
       SignOrder keccak sign w o = some (some e, o)) ∧
    (∀ sig : Signature,
       SignHash keccak sign w t.ComputeHash = some (sig, none) →
       SignTrade keccak sign w t =
         some (none, { t with Hash := t.ComputeHash, Signature := some sig })) ∧
    (∀ (sig : Signature) (e : GoError),
       SignHash keccak sign w t.ComputeHash = some (sig, some e) →
       SignTrade keccak sign w t = some (some e, t)) := by
  refine ⟨?_, ?_, ?_, ?_⟩
  · intro sig hs
    rw [SignOrder, hs]
  · intro sig e hs
    rw [SignOrder, hs]
  · intro sig hs
    rw [SignTrade, hs]
  · intro sig e hs
    rw [SignTrade, hs]

/-- Witness for C5 on a concrete order and trade with a succeeding sign
primitive. -/
theorem C5_witness :
    SignOrder keccakZero signOk wEx oEx =
      some (none,
            { oEx with
              Hash := oEx.ComputeHash,
              Signature := some sigZero27 }) ∧
    SignTrade keccakZero signOk wEx tEx =
      some (none,
            { tEx with
              Hash := tEx.ComputeHash,
              Signature := some sigZero27 }) :=
  ⟨(C5_sign_wrappers_all_or_nothing keccakZero signOk wEx oEx tEx).1
     sigZero27 (by decide),
   (C5_sign_wrappers_all_or_nothing keccakZero signOk wEx oEx tEx).2.2.1
     sigZero27 (by decide)⟩

/-- C6: when the ECDSA sign primitive fails, SignHash returns the error
together with the zero-valued Signature. -/
theorem C6_signHash_error_returns_empty
    (keccak : List Nat → List Nat)
    (sign : List Nat → Nat → Except GoError (List Nat))
    (w : Wallet) (d : Nat) (h : List Nat) (e : GoError)
    (hkey : w.PrivateKey = some d)
    (hsign : sign (keccak (ethPreamble ++ h)) d = Except.error e) :
    SignHash keccak sign w h = some (emptySignature, some e) := by
  rw [SignHash, hkey]
  simp only [hsign]

/-- Witness for C6 with a concrete failing sign primitive. -/
theorem C6_witness :
    SignHash keccakZero signBad wEx (List.replicate 32 2) =
      some (emptySignature, some (GoError.external 7)) :=
  C6_signHash_error_returns_empty keccakZero signBad wEx 1
    (List.replicate 32 2) (GoError.external 7) rfl rfl

/-- C7: GetBSON projects the wallet to a record carrying the id, the hex
encoding of the address, the hex encoding of the private scalar and the admin
flag, while the record's operator field is left at its zero value regardless
of the wallet's operator flag. -/
theorem C7_getBSON_projection (w : Wallet) (d : Nat)
    (hkey : w.PrivateKey = some d) :
    GetBSON w =
      some ({ ID := w.ID,
              Address := addressHex w.Address,
              PrivateKey := hexEncode (minBytes d),
              Admin := w.Admin,
              Operator := false }, none) := by
  rw [GetBSON, hkey]

/-- Witness for C7 at a concrete wallet whose operator flag is set. -/
theorem C7_witness :
    GetBSON wEx =
      some ({ ID := 7,
              Address := addressHex (List.replicate 20 0),
              PrivateKey := hexEncode (minBytes 1),
              Admin := true,
              Operator := false }, none) :=
  C7_getBSON_projection wEx 1 rfl

/-- C8: SetBSON is not atomic on error: when the structural unmarshal succeeds
but the private-key hex fails to parse, the error is returned after the
wallet's id and address have already been overwritten with the record's
values (and the private key with nil), while the admin and operator fields
retain their prior values. -/
theorem C8_setBSON_non_atomic_on_error (v : Wallet) (r : WalletRecord)
    (e : GoError) (hpk : hexToScalar r.PrivateKey = Except.error e) :
    SetBSON v (Except.ok r) =
      (some e,
       { v with
         ID := r.ID,
         Address := hexToAddress r.Address,
         PrivateKey := none }) := by
  rw [SetBSON]
  simp only [hpk]

/-- Witness for C8 on a target wallet with both flags set and a record whose
private key is not hex. -/
theorem C8_witness :
    SetBSON wEx (Except.ok rBad) =
      (some GoError.invalidKeyFormat,
       { ID := 9,
         Address := hexToAddress ['0', 'x', 'a', 'b'],
         PrivateKey := none,
         Admin := true,
         Operator := true }) :=
  C8_setBSON_non_atomic_on_error wEx rBad GoError.invalidKeyFormat rfl

/-- C9: SetBSON never fails because of the address field: the returned error
does not depend on the record's address string, the address is silently
coerced into a 20-byte value, and (once the structural unmarshal succeeded)
a decode error arises exactly when the private-key parse fails. -/
theorem C9_setBSON_address_never_fails (v : Wallet) (r : WalletRecord)
    (a : List Char) :
    (SetBSON v (Except.ok { r with Address := a })).1 =
      (SetBSON v (Except.ok r)).1 ∧
    (hexToAddress a).length = 20 ∧
    ((SetBSON v (Except.ok r)).1 = none ↔
      ∃ d, hexToScalar r.PrivateKey = Except.ok d) := by
  refine ⟨?_, bytesToFixed_length 20 (fromHex a), ?_⟩
  · rcases hpk : hexToScalar r.PrivateKey with e | d
    · rw [SetBSON, SetBSON]
      simp only [hpk]
    · rw [SetBSON, SetBSON]
      simp only [hpk]
  · rcases hpk : hexToScalar r.PrivateKey with e | d
    · rw [SetBSON]
      simp only [hpk]
      constructor
      · intro hc
        simp at hc
      · intro hc
        rcases hc with ⟨d, hd⟩
        simp at hd
    · rw [SetBSON]
      simp [hpk]

/-- C10: GetBSON never fails: for every wallet whose private key is present,
the returned error is nil. -/
theorem C10_getBSON_error_always_nil (w : Wallet) (d : Nat)
    (hkey : w.PrivateKey = some d) :
    ∃ r : WalletRecord, GetBSON w = some (r, none) := by
  rw [GetBSON, hkey]
  exact ⟨_, rfl⟩

/-- Witness for C10 at a concrete wallet. -/
theorem C10_witness : ∃ r : WalletRecord, GetBSON wEx = some (r, none) :=
  C10_getBSON_error_always_nil wEx 1 rfl
